import Mathlib

/-!
Verification of the Coder-Agent repository's orchestration core against its
natural-language specification.  The Python sources are shallowly embedded:
Python `str` values handled character-wise are modelled as lists of Unicode
code points (`PyStr`), JSON values as the inductive `JValue`, Python dicts as
insertion-ordered association lists, and effectful calls (LLM providers,
subprocesses, web search) as explicit environment records supplying each
call's outcome.
-/

/-- First-match association-list lookup, modelling Python `dict.get(k)` /
`k in d` on dicts embedded as insertion-ordered key-value lists. -/
def dictGet {α β : Type} [DecidableEq α] : List (α × β) → α → Option β
  | [], _ => none
  | (k', v) :: es, k => if k' = k then some v else dictGet es k

theorem dictGet_mem {α β : Type} [DecidableEq α] {l : List (α × β)} {k : α} {v : β}
    (h : dictGet l k = some v) : (k, v) ∈ l := by
  induction l with
  | nil => simp [dictGet] at h
  | cons p es ih =>
    obtain ⟨k', v'⟩ := p
    by_cases hk : k' = k
    · subst hk
      rw [dictGet, if_pos rfl] at h
      injection h with h
      subst h
      exact List.mem_cons_self _ _
    · rw [dictGet, if_neg hk] at h
      exact List.mem_cons_of_mem _ (ih h)

namespace PyText

/-- Python strings, as lists of Unicode code points.  Used for the functions
of `app/utils/text_utils.py`, which operate character-wise. -/
abbrev PyStr := List Nat

/-- Convert a Lean string literal to its code-point list (for readable
transcription of Python string literals). -/
def pstr (s : String) : PyStr := s.toList.map Char.toNat

/-- One character of Python `str.lower` restricted to ASCII: code points
65–90 (A–Z) map to 97–122 (a–z); everything else is unchanged.  This models
`language.lower()` in `clean_language_name` (text_utils.py line 169), whose
inputs are ASCII language names. -/
def charLower (n : Nat) : Nat := if 65 ≤ n ∧ n ≤ 90 then n + 32 else n

/-- `str.lower`, character-wise. -/
def pyLower (s : PyStr) : PyStr := s.map charLower

/-- The ASCII whitespace code points removed by Python `str.strip()`:
space, tab, newline, carriage return, vertical tab, form feed. -/
def isPySpace (n : Nat) : Bool :=
  decide (n = 32 ∨ n = 9 ∨ n = 10 ∨ n = 13 ∨ n = 11 ∨ n = 12)

/-- Remove leading whitespace (the left half of `str.strip()`). -/
def pyLStrip (s : PyStr) : PyStr := s.dropWhile isPySpace

/-- Remove trailing whitespace (the right half of `str.strip()`). -/
def pyRStrip (s : PyStr) : PyStr := (s.reverse.dropWhile isPySpace).reverse

/-- Python `str.strip()`: drop whitespace from both ends. -/
def pyStrip (s : PyStr) : PyStr := pyRStrip (pyLStrip s)

/-- The `language_map` literal of `clean_language_name`
(text_utils.py lines 172–225), in source order. -/
def languageMap : List (PyStr × PyStr) :=
  [ (pstr "javascript", pstr "javascript")
  , (pstr "js", pstr "javascript")
  , (pstr "node", pstr "javascript")
  , (pstr "nodejs", pstr "javascript")
  , (pstr "node.js", pstr "javascript")
  , (pstr "typescript", pstr "typescript")
  , (pstr "ts", pstr "typescript")
  , (pstr "python", pstr "python")
  , (pstr "py", pstr "python")
  , (pstr "python3", pstr "python")
  , (pstr "java", pstr "java")
  , (pstr "c#", pstr "csharp")
  , (pstr "csharp", pstr "csharp")
  , (pstr "c-sharp", pstr "csharp")
  , (pstr "c++", pstr "cpp")
  , (pstr "cpp", pstr "cpp")
  , (pstr "c", pstr "c")
  , (pstr "go", pstr "go")
  , (pstr "golang", pstr "go")
  , (pstr "ruby", pstr "ruby")
  , (pstr "rb", pstr "ruby")
  , (pstr "php", pstr "php")
  , (pstr "rust", pstr "rust")
  , (pstr "rs", pstr "rust")
  , (pstr "swift", pstr "swift")
  , (pstr "kotlin", pstr "kotlin")
  , (pstr "kt", pstr "kotlin") ]

/-- `clean_language_name` (text_utils.py lines 160–227):
`language.lower().strip()`, then `language_map.get(language, language)`. -/
def clean_language_name (language : PyStr) : PyStr :=
  let t := pyStrip (pyLower language)
  ((dictGet languageMap t).getD t)

theorem charLower_charLower (n : Nat) : charLower (charLower n) = charLower n := by
  unfold charLower
  split
  · rename_i h
    have hno : ¬ (65 ≤ n + 32 ∧ n + 32 ≤ 90) := by omega
    rw [if_neg hno]
  · rfl

theorem isPySpace_charLower (n : Nat) : isPySpace (charLower n) = isPySpace n := by
  unfold charLower isPySpace
  split
  · rename_i h
    rw [decide_eq_decide]
    omega
  · rfl

theorem pyLower_pyLower (s : PyStr) : pyLower (pyLower s) = pyLower s := by
  unfold pyLower
  rw [List.map_map]
  exact List.map_congr_left fun n _ => charLower_charLower n

theorem isPySpace_comp_charLower : isPySpace ∘ charLower = isPySpace := by
  funext n
  exact isPySpace_charLower n

theorem pyLStrip_map_charLower (s : PyStr) :
    pyLStrip (s.map charLower) = (pyLStrip s).map charLower := by
  unfold pyLStrip
  rw [List.dropWhile_map, isPySpace_comp_charLower]

theorem pyRStrip_map_charLower (s : PyStr) :
    pyRStrip (s.map charLower) = (pyRStrip s).map charLower := by
  unfold pyRStrip
  rw [← List.map_reverse, List.dropWhile_map, isPySpace_comp_charLower, List.map_reverse]

theorem pyStrip_pyLower (s : PyStr) :
    pyStrip (pyLower s) = pyLower (pyStrip s) := by
  unfold pyStrip pyLower
  rw [pyLStrip_map_charLower, pyRStrip_map_charLower]

theorem dropWhile_dropWhile (p : Nat → Bool) (l : List Nat) :
    (l.dropWhile p).dropWhile p = l.dropWhile p := by
  induction l with
  | nil => rfl
  | cons a t ih =>
    by_cases h : p a
    · simp [List.dropWhile_cons, h, ih]
    · simp [List.dropWhile_cons, h]

theorem dropWhile_prefix_eq (p : Nat → Bool) (l m : List Nat)
    (hl : l.dropWhile p = l) (hm : m <+: l) : m.dropWhile p = m := by
  cases m with
  | nil => rfl
  | cons a t =>
    obtain ⟨r, hr⟩ := hm
    cases l with
    | nil => simp at hr
    | cons b u =>
      rw [List.cons_append] at hr
      injection hr with hab hrest
      subst hab
      by_cases h : p a
      · exfalso
        rw [List.dropWhile_cons, if_pos h] at hl
        have hle : (u.dropWhile p).length ≤ u.length :=
          List.IsSuffix.length_le (List.dropWhile_suffix p : u.dropWhile p <:+ u)
        have := congrArg List.length hl
        simp at this
        omega
      · rw [List.dropWhile_cons, if_neg h]

theorem pyLStrip_pyLStrip (s : PyStr) : pyLStrip (pyLStrip s) = pyLStrip s :=
  dropWhile_dropWhile _ s

theorem pyRStrip_prefixOf (s : PyStr) : pyRStrip s <+: s := by
  unfold pyRStrip
  have h : s.reverse.dropWhile isPySpace <:+ s.reverse := List.dropWhile_suffix _
  have := List.reverse_prefix.mpr (by simpa using h)
  simpa using this

theorem pyLStrip_pyRStrip_of_fixed (s : PyStr) (h : pyLStrip s = s) :
    pyLStrip (pyRStrip s) = pyRStrip s :=
  dropWhile_prefix_eq _ s _ h (pyRStrip_prefixOf s)

theorem pyRStrip_pyRStrip (s : PyStr) : pyRStrip (pyRStrip s) = pyRStrip s := by
  unfold pyRStrip
  rw [List.reverse_reverse, dropWhile_dropWhile]

theorem pyStrip_pyStrip (s : PyStr) : pyStrip (pyStrip s) = pyStrip s := by
  unfold pyStrip
  rw [pyLStrip_pyRStrip_of_fixed (pyLStrip s) (pyLStrip_pyLStrip s), pyRStrip_pyRStrip]

/-- The normalisation `language.lower().strip()` is idempotent. -/
theorem norm_norm (s : PyStr) :
    pyStrip (pyLower (pyStrip (pyLower s))) = pyStrip (pyLower s) := by
  have h1 : pyLower (pyStrip (pyLower s)) = pyStrip (pyLower s) := by
    rw [← pyStrip_pyLower, pyLower_pyLower]
  rw [h1, pyStrip_pyStrip]

/-- Every value stored in `language_map` is itself a fixed point of
`clean_language_name`. -/
theorem languageMap_values_fixed :
    ∀ p ∈ languageMap, clean_language_name p.2 = p.2 := by decide

theorem clean_language_name_def (x : PyStr) :
    clean_language_name x
      = (dictGet languageMap (pyStrip (pyLower x))).getD (pyStrip (pyLower x)) := rfl

theorem clean_language_name_idem (s : PyStr) :
    clean_language_name (clean_language_name s) = clean_language_name s := by
  cases hl : dictGet languageMap (pyStrip (pyLower s)) with
  | none =>
    have hs : clean_language_name s = pyStrip (pyLower s) := by
      rw [clean_language_name_def, hl]
      rfl
    rw [hs, clean_language_name_def, norm_norm, hl]
    rfl
  | some v =>
    have hs : clean_language_name s = v := by
      rw [clean_language_name_def, hl]
      rfl
    rw [hs]
    exact languageMap_values_fixed _ (dictGet_mem hl)

end PyText

/-! ## JSON values

Python objects produced by `json.loads` / passed around as schema dicts are
modelled by `JValue`.  Dicts are insertion-ordered association lists, matching
CPython semantics (`dict.get`, `in`, assignment appends new keys at the end).
-/

inductive JValue where
  | null
  | bool (b : Bool)
  | num (n : Int)
  | str (s : String)
  | arr (items : List JValue)
  | obj (entries : List (String × JValue))

/-- A Python dict with string keys holding JSON values. -/
abbrev JDict := List (String × JValue)

mutual

/-- Structural equality, modelling Python `==` on JSON-like values. -/
def JValue.beq : JValue → JValue → Bool
  | .null, .null => true
  | .bool a, .bool b => a == b
  | .num a, .num b => a == b
  | .str a, .str b => a == b
  | .arr xs, .arr ys => JValue.beqList xs ys
  | .obj xs, .obj ys => JValue.beqEntries xs ys
  | _, _ => false

def JValue.beqList : List JValue → List JValue → Bool
  | [], [] => true
  | x :: xs, y :: ys => JValue.beq x y && JValue.beqList xs ys
  | _, _ => false

def JValue.beqEntries : List (String × JValue) → List (String × JValue) → Bool
  | [], [] => true
  | (k1, v1) :: xs, (k2, v2) :: ys =>
      k1 == k2 && JValue.beq v1 v2 && JValue.beqEntries xs ys
  | _, _ => false

end

instance : BEq JValue := ⟨JValue.beq⟩

/-- Python truthiness of a JSON-like value: `None`, `False`, `0`, `""`,
`[]` and `{}` are falsy, everything else truthy. -/
def JValue.truthy : JValue → Bool
  | .null => false
  | .bool b => b
  | .num n => n != 0
  | .str s => decide (s ≠ "")
  | .arr items => !items.isEmpty
  | .obj entries => !entries.isEmpty

/-- `d.get(k, default)` on an embedded dict. -/
def JDict.getD (d : JDict) (k : String) (v : JValue) : JValue :=
  (dictGet d k).getD v

/-- `k in d` on an embedded dict. -/
def JDict.containsKey (d : JDict) (k : String) : Bool :=
  (dictGet d k).isSome

/-- Keys of the dict value at key `k`, or `[]` when absent or not a dict. -/
def JValue.entriesOf : JValue → JDict
  | .obj es => es
  | _ => []

/-! ## Sandboxed test runner (`app/agents/test_executor.py`)

`TestExecutionAgent._run_code` shells out twice: an optional compile step
(javac / gcc / g++, `check=True`, no output capture) and the main run of the
combined solution+test script (`capture_output=True`, `timeout=10`).  The
environment record `ExecEnv` supplies each subprocess outcome.  The
per-case result dicts built by `_parse_test_output` carry description /
input / output fields that no claim mentions; only the `passed` flag is
carried here, and the parser itself is supplied by the environment since
the claims quantify over its output. -/

namespace TestExec

open PyText

/-- One per-case result as produced by `_parse_test_output`. -/
structure TRes where
  passed : Bool
  deriving DecidableEq

/-- The dict returned by `TestExecutionAgent.process`.  `raw_output` is
`none` for the two early-return branches, which omit the key. -/
structure TOutcome where
  passed : Bool
  results : List TRes
  summary : String
  raw_output : Option String
  deriving DecidableEq

/-- Outcome of the compile `subprocess.run` (test_executor.py lines 132-140).
The compile call does not capture output, so `stderrText` records what the
compiler wrote to the parent's stderr stream; it is NOT available on the
raised `CalledProcessError`, whose `stderr` attribute is `None` when output
was not captured. -/
inductive CompileOutcome where
  | timeout
  | exit (returncode : Int) (stderrText : String)
  deriving DecidableEq

/-- Outcome of the main `subprocess.run` of the test script (line 147,
`capture_output=True`, `text=True`, `timeout=10`). -/
inductive RunOutcome where
  | timeout
  | completed (returncode : Int) (stdout stderr : String)
  deriving DecidableEq

/-- Environment: outcomes of the external effects reachable from
`TestExecutionAgent.process`. -/
structure ExecEnv where
  compile : CompileOutcome
  run : RunOutcome
  elapsedMs : Nat
  /-- `_parse_test_output`, as a function of the combined output; the claims
  quantify over the parsed per-case list. -/
  parse : String → List TRes
  /-- Text returned by the `_analyze_test_failures` LLM call. -/
  analyze : String

/-- Python `str.strip()` on a Lean string. -/
def stripS (s : String) : String :=
  ((s.toList.map Char.toNat |> pyStrip).map Char.ofNat).asString

/-- `language in ["java", "c", "cpp", "c++"]`: the branches of `_run_code`
that compile before running (lines 130-141); every other language falls
through to a direct interpreter invocation. -/
def needsCompile (language : PyStr) : Bool :=
  language == pstr "java" || language == pstr "c" || language == pstr "cpp" ||
    language == pstr "c++"

/-- The main-run half of `_run_code` (lines 146-191). -/
def runMain (env : ExecEnv) : String × Nat × String :=
  match env.run with
  | .timeout => ("", 10000, "Execution timed out after 10 seconds")
  | .completed rc out err =>
    let combined := out ++ err
    let execError :=
      if rc ≠ 0 then
        "Process exited with code " ++ toString rc ++ ". Stderr: " ++ stripS err
      else ""
    (stripS combined, env.elapsedMs, execError)

/-- `_run_code` (lines 102-191): returns `(output, execution_time, error)`.
A compile timeout raises `subprocess.TimeoutExpired`; a non-zero compile
exit raises `subprocess.CalledProcessError`, handled by
`error_msg = e.stderr if hasattr(e, 'stderr') else str(e)` — and since the
compile call did not capture output, `e.stderr` is `None`, so the returned
error is the literal `"Execution failed: None"`. -/
def runCode (env : ExecEnv) (language : PyStr) : String × Nat × String :=
  if needsCompile language then
    match env.compile with
    | .timeout => ("", 10000, "Execution timed out after 10 seconds")
    | .exit rc _ =>
      if rc ≠ 0 then ("", 0, "Execution failed: None")
      else runMain env
  else runMain env

/-- `TestExecutionAgent.process` (lines 36-100). -/
def process (env : ExecEnv) (code : String) (language0 : PyStr) : TOutcome :=
  let language := clean_language_name language0
  if code = "" then
    { passed := false, results := [], summary := "No code provided for testing",
      raw_output := none }
  else
    let r := runCode env language
    let output := r.1
    let error := r.2.2
    if error ≠ "" then
      { passed := false, results := [],
        summary := "Error executing tests: " ++ error, raw_output := none }
    else
      let testResults := env.parse output
      let passedTests := testResults.countP (fun t => t.passed)
      let totalTests := testResults.length
      let allPassed := decide (0 < totalTests) && decide (passedTests = totalTests)
      let summary0 :=
        if 0 < totalTests then
          "Passed " ++ toString passedTests ++ "/" ++ toString totalTests ++ " tests."
        else "No test results could be parsed from output."
      let summary :=
        if allPassed = false ∧ testResults ≠ [] then
          summary0 ++ "\n\nTest failure analysis: " ++ env.analyze
        else summary0
      { passed := allPassed, results := testResults, summary := summary,
        raw_output := some output }

/-- Substring test (Python `needle in haystack`). -/
def strContains (haystack needle : String) : Bool :=
  haystack.toList.tails.any (fun t => needle.toList.isPrefixOf t)

end TestExec

namespace TestExecClaims

open PyText TestExec

/-- C4: if the main run of the combined test script exceeds the 10-second
wall-clock timeout (and compilation, where required, succeeded), `process`
returns a `TestOutcome` with `passed = false`, empty `results`, and a
summary mentioning "timed out"; the embedding is a total function, so no
exception reaches the caller. -/
theorem execute_timeout_reports_timed_out (env : ExecEnv) (code : String)
    (lang : PyStr)
    (hcode : code ≠ "")
    (hrun : env.run = RunOutcome.timeout)
    (hcompile : needsCompile (clean_language_name lang) = true →
      ∃ st, env.compile = CompileOutcome.exit 0 st) :
    process env code lang =
      { passed := false, results := [],
        summary := "Error executing tests: Execution timed out after 10 seconds",
        raw_output := none } ∧
    strContains "Error executing tests: Execution timed out after 10 seconds"
      "timed out" = true := by
  refine ⟨?_, by decide⟩
  have hrc : runCode env (clean_language_name lang) =
      ("", 10000, "Execution timed out after 10 seconds") := by
    unfold runCode
    by_cases hnc : needsCompile (clean_language_name lang) = true
    · obtain ⟨st, hc⟩ := hcompile hnc
      rw [if_pos hnc, hc]
      simp [runMain, hrun]
    · rw [if_neg hnc]
      unfold runMain
      rw [hrun]
  unfold process
  rw [if_neg hcode, hrc]
  rfl

/-- C4 witness: a concrete Python-language run that times out. -/
theorem execute_timeout_reports_timed_out_witness :
    process
      { compile := CompileOutcome.exit 0 "", run := RunOutcome.timeout,
        elapsedMs := 0, parse := fun _ => [], analyze := "" }
      "print(1)" (pstr "python") =
      { passed := false, results := [],
        summary := "Error executing tests: Execution timed out after 10 seconds",
        raw_output := none } :=
  (execute_timeout_reports_timed_out
    { compile := CompileOutcome.exit 0 "", run := RunOutcome.timeout,
      elapsedMs := 0, parse := fun _ => [], analyze := "" }
    "print(1)" (pstr "python") (by decide) rfl
    (fun h => ⟨"", rfl⟩)).1

/-- The environment of a C compilation that fails: `gcc` exits with status 1
after writing a diagnostic to the (uncaptured) stderr stream. -/
def compileFailEnv : ExecEnv :=
  { compile := CompileOutcome.exit 1 "solution.c:3:1: error: expected declaration",
    run := RunOutcome.completed 0 "" "", elapsedMs := 0,
    parse := fun _ => [], analyze := "" }

/-- C5: on a failed compilation, `process` does return `passed=false` and
`results=[]`, but the reported error is the literal string
"Execution failed: None" — the compiler's stderr is NOT propagated, because
the compile `subprocess.run` call does not capture output, so
`CalledProcessError.stderr` is `None`.  The compiler's actual diagnostic does
not occur in the returned summary. -/
theorem compile_failure_loses_stderr :
    process compileFailEnv "int main(void)" (pstr "c") =
      { passed := false, results := [],
        summary := "Error executing tests: Execution failed: None",
        raw_output := none } ∧
    strContains "Error executing tests: Execution failed: None"
      "solution.c:3:1: error: expected declaration" = false := by
  constructor
  · rfl
  · decide

/-- C6: the `passed` flag of a `TestOutcome` produced by
`TestExecutionAgent.process` is true iff the parsed per-case result list is
non-empty and every per-case result in it passed. -/
theorem process_passed_iff_all_cases_passed (env : ExecEnv) (code : String)
    (lang : PyStr) :
    (process env code lang).passed = true ↔
      ((process env code lang).results ≠ [] ∧
        ∀ r ∈ (process env code lang).results, r.passed = true) := by
  unfold process
  dsimp only
  split
  · simp
  split
  · simp
  dsimp only
  rw [Bool.and_eq_true, decide_eq_true_iff, decide_eq_true_iff]
  constructor
  · rintro ⟨hpos, hcnt⟩
    refine ⟨by simpa using List.length_pos.mp hpos, ?_⟩
    intro r hr
    exact List.countP_eq_length.mp hcnt r hr
  · rintro ⟨hne, hall⟩
    exact ⟨List.length_pos.mpr (by simpa using hne),
      List.countP_eq_length.mpr hall⟩

end TestExecClaims

/-! ## Language model gateway (`app/services/ai_service.py`)

`GeminiService.generate_structured_output` post-processes the provider
response with `_fix_missing_required_fields` (defaults for missing required
fields, recursing into nested object schemas) or, when nothing parses,
`_generate_fallback_response`.  `OpenAIService.generate_structured_output`
returns `json.loads(response.output_text)` as-is, wraps undecodable text as
`{"result": text}`, and returns `{}` on error — it never consults the schema
when post-processing.  The environments supply the provider response,
including the outcome of the stdlib `json.loads` on returned text. -/

namespace AiService

/-- `v.get(k)` when `v` is a dict; Python would raise on non-dicts, but every
call site below is guarded by an `isinstance(..., dict)` check. -/
def sGet (v : JValue) (k : String) : Option JValue :=
  match v with
  | .obj es => dictGet es k
  | _ => none

/-- `schema.get("required", [])`, read as a list of field-name strings (all
schemas in the repository use string entries; non-string entries would make
the Python membership tests vacuous and are dropped). -/
def requiredStrings (ss : JDict) : List String :=
  match dictGet ss "required" with
  | some (.arr xs) => xs.filterMap fun v =>
      match v with
      | .str f => some f
      | _ => none
  | _ => []

/-- `schema.get("properties", {})` as a dict (entries empty when absent or
not a dict). -/
def propsOf (ss : JDict) : JDict :=
  ((dictGet ss "properties").getD (.obj [])).entriesOf

/-- `field_schema.get("type")` when it is a string. -/
def typeName (fs : JValue) : Option String :=
  match sGet fs "type" with
  | some (.str t) => some t
  | _ => none

/-- The type-appropriate default of `_fix_missing_required_fields` /
`_generate_fallback_response` (ai_service.py lines 154-168 and 226-241):
`""`, `[]`, `{}`, `0`, `False`, and `None` for any other type tag. -/
def defaultFor (fs : JValue) : JValue :=
  match typeName fs with
  | some "string" => .str ""
  | some "array" => .arr []
  | some "object" => .obj []
  | some "number" => .num 0
  | some "integer" => .num 0
  | some "boolean" => .bool false
  | _ => .null

/-- Python dict assignment `d[k] = v`: replace in place, append new keys. -/
def dictSet : JDict → String → JValue → JDict
  | [], k, v => [(k, v)]
  | (k', v') :: es, k, v =>
      if k' = k then (k, v) :: es else (k', v') :: dictSet es k v

/-- First loop of `_fix_missing_required_fields` (lines 223-241): for each
required field not yet present, append its type-appropriate default. -/
def addRequiredDefaults (props : JDict) : JDict → List String → JDict
  | es, [] => es
  | es, f :: rest =>
      addRequiredDefaults props
        (if (dictGet es f).isSome then es
         else es ++ [(f, defaultFor ((dictGet props f).getD (.obj [])))])
        rest

theorem sizeOf_dictGet {α β : Type} [DecidableEq α] [SizeOf α] [SizeOf β]
    {d : List (α × β)} {k : α} {v : β}
    (h : dictGet d k = some v) : sizeOf v < sizeOf d := by
  have hm := dictGet_mem h
  have h1 : sizeOf (k, v) ≤ sizeOf d := le_of_lt (List.sizeOf_lt_of_mem hm)
  have h2 : sizeOf (k, v) = 1 + sizeOf k + sizeOf v := rfl
  omega

theorem sizeOf_jvalue_pos (v : JValue) : 1 ≤ sizeOf v := by
  cases v <;> simp

theorem sizeOf_entriesOf (v : JValue) : sizeOf v.entriesOf ≤ sizeOf v := by
  cases v <;> simp [JValue.entriesOf]

theorem sizeOf_propsOf_get {ss : JDict} {k : String} {fs : JValue}
    (h : dictGet (propsOf ss) k = some fs) : sizeOf fs < sizeOf ss := by
  have h1 : sizeOf fs < sizeOf (propsOf ss) := sizeOf_dictGet h
  have hpos : 1 ≤ sizeOf fs := sizeOf_jvalue_pos fs
  unfold propsOf at h1
  cases hp : dictGet ss "properties" with
  | none =>
    rw [hp] at h1
    simp [JValue.entriesOf] at h1
    omega
  | some p =>
    rw [hp] at h1
    simp only [Option.getD_some] at h1
    have h2 : sizeOf p.entriesOf ≤ sizeOf p := sizeOf_entriesOf p
    have h3 : sizeOf p < sizeOf ss := sizeOf_dictGet hp
    omega

mutual

/-- `_fix_missing_required_fields` (ai_service.py lines 205-251): on dict
inputs, add defaults for missing required fields, then recursively fix dict
values whose property schema has type `"object"`.  Non-dict results (or
non-dict schemas) are returned unchanged. -/
def fixMissingRequired (result schema : JValue) : JValue :=
  match result, schema with
  | .obj es, .obj ss =>
      .obj (fixStep2 (addRequiredDefaults (propsOf ss) es (requiredStrings ss)) ss)
  | r, _ => r
termination_by (sizeOf schema, 0)
decreasing_by
  all_goals apply Prod.Lex.left
  all_goals simp

/-- Second loop of `_fix_missing_required_fields` (lines 244-249): iterate
the (already completed) entries, recursing into dict values keyed by an
object-typed property. -/
def fixStep2 (es : JDict) (ss : JDict) : JDict :=
  match es with
  | [] => []
  | (k, v) :: rest => (k, fixEntry ss k v) :: fixStep2 rest ss
termination_by (sizeOf ss, 1 + sizeOf es)
decreasing_by
  all_goals apply Prod.Lex.right
  all_goals simp

/-- The body of the second loop for one entry. -/
def fixEntry (ss : JDict) (k : String) (v : JValue) : JValue :=
  match _hget : dictGet (propsOf ss) k with
  | some fs =>
      match v with
      | .obj nested =>
          if typeName fs = some "object" then fixMissingRequired (.obj nested) fs
          else v
      | _ => v
  | none => v
termination_by (sizeOf ss, 0)
decreasing_by
  apply Prod.Lex.left
  exact sizeOf_propsOf_get _hget

end

/-- `_generate_fallback_response` (ai_service.py lines 138-170): iterate the
schema's properties in order and emit a type-appropriate default for each
property that is listed as required.  Required names with no properties
entry are NOT emitted (the loop runs over `properties.items()`). -/
def generateFallback (schema : JValue) : JDict :=
  match schema with
  | .obj ss =>
      (propsOf ss).foldl
        (fun acc kv =>
          if kv.1 ∈ requiredStrings ss then dictSet acc kv.1 (defaultFor kv.2)
          else acc)
        []
  | _ => []

/-- A Gemini provider response, as consumed by
`GeminiService.generate_structured_output` (lines 96-132): a structured
`response.parsed` value, a raw `response.text` together with the outcome of
the stdlib `json.loads` on it, neither field usable, or an exception from
the API call. -/
inductive GemResp where
  | parsed (p : JValue)
  | textOnly (raw : String) (decoded : Option JValue)
  | emptyResp
  | apiError (e : String)

/-- `GeminiService.generate_structured_output` (lines 79-136). -/
def gemini_generate_structured_output (r : GemResp) (schema : JValue) : JValue :=
  match r with
  | .parsed p => fixMissingRequired p schema
  | .textOnly raw decoded =>
      if raw ≠ "" then
        match decoded with
        | some j => fixMissingRequired j schema
        | none => .obj (generateFallback schema)
      else .obj (generateFallback schema)
  | .emptyResp => .obj (generateFallback schema)
  | .apiError _ => .obj (generateFallback schema)

/-- An OpenAI provider response, as consumed by
`OpenAIService.generate_structured_output` (lines 282-324): an
`output_text` or `text` attribute with the outcome of `json.loads` on it,
neither attribute present, or an exception. -/
inductive OAResp where
  | withOutputText (raw : String) (decoded : Option JValue)
  | withText (raw : String) (decoded : Option JValue)
  | noUsableField
  | raises (e : String)

/-- `OpenAIService.generate_structured_output` (lines 282-324).  Note that
the response handling never consults the schema: decoded JSON is returned
as-is, undecodable text is wrapped as `{"result": text}`, and errors yield
`{}`. -/
def openai_generate_structured_output (r : OAResp) (_output_schema : JValue) : JValue :=
  match r with
  | .withOutputText raw decoded =>
      match decoded with
      | some j => j
      | none => .obj [("result", .str raw)]
  | .withText raw decoded =>
      match decoded with
      | some j => j
      | none => .obj [("result", .str raw)]
  | .noUsableField => .obj []
  | .raises _ => .obj []

theorem dictGet_append_some {es l : JDict} {k : String} {v : JValue}
    (h : dictGet es k = some v) : dictGet (es ++ l) k = some v := by
  induction es with
  | nil => simp [dictGet] at h
  | cons p rest ih =>
    obtain ⟨k', v'⟩ := p
    by_cases hk : k' = k
    · rw [dictGet, if_pos hk] at h
      rw [List.cons_append, dictGet, if_pos hk]
      exact h
    · rw [dictGet, if_neg hk] at h
      rw [List.cons_append, dictGet, if_neg hk]
      exact ih h

theorem dictGet_append_none {es l : JDict} {k : String}
    (h : dictGet es k = none) : dictGet (es ++ l) k = dictGet l k := by
  induction es with
  | nil => rfl
  | cons p rest ih =>
    obtain ⟨k', v'⟩ := p
    by_cases hk : k' = k
    · rw [dictGet, if_pos hk] at h
      exact absurd h (by simp)
    · rw [dictGet, if_neg hk] at h
      rw [List.cons_append, dictGet, if_neg hk]
      exact ih h

theorem addRequiredDefaults_preserves {props es : JDict} {req : List String}
    {f : String} {v : JValue} (h : dictGet es f = some v) :
    dictGet (addRequiredDefaults props es req) f = some v := by
  induction req generalizing es with
  | nil => exact h
  | cons g rest ih =>
    rw [addRequiredDefaults]
    by_cases hp : (dictGet es g).isSome
    · rw [if_pos hp]
      exact ih h
    · rw [if_neg hp]
      exact ih (dictGet_append_some h)

theorem addRequiredDefaults_complete {props es : JDict} {req : List String}
    {f : String} (h : f ∈ req) :
    (dictGet (addRequiredDefaults props es req) f).isSome = true := by
  induction req generalizing es with
  | nil => simp at h
  | cons g rest ih =>
    rw [addRequiredDefaults]
    by_cases hg : g = f
    · subst hg
      by_cases hp : (dictGet es g).isSome
      · rw [if_pos hp]
        obtain ⟨v, hv⟩ := Option.isSome_iff_exists.mp hp
        rw [addRequiredDefaults_preserves hv]
        rfl
      · rw [if_neg hp]
        have he : dictGet es g = none := Option.not_isSome_iff_eq_none.mp hp
        have : dictGet (es ++ [(g, defaultFor ((dictGet props g).getD (.obj [])))]) g
            = some (defaultFor ((dictGet props g).getD (.obj []))) := by
          rw [dictGet_append_none he, dictGet, if_pos rfl]
        rw [addRequiredDefaults_preserves this]
        rfl
    · have hf : f ∈ rest := by
        cases h with
        | head => exact absurd rfl hg
        | tail _ h => exact h
      by_cases hp : (dictGet es g).isSome
      · rw [if_pos hp]
        exact ih hf
      · rw [if_neg hp]
        exact ih hf

theorem addRequiredDefaults_fresh {props es : JDict} {req : List String}
    {f : String} (hmem : f ∈ req) (hnone : dictGet es f = none) :
    dictGet (addRequiredDefaults props es req) f
      = some (defaultFor ((dictGet props f).getD (.obj []))) := by
  induction req generalizing es with
  | nil => simp at hmem
  | cons g rest ih =>
    rw [addRequiredDefaults]
    by_cases hg : g = f
    · subst hg
      rw [if_neg (by simp [hnone])]
      have : dictGet (es ++ [(g, defaultFor ((dictGet props g).getD (.obj [])))]) g
          = some (defaultFor ((dictGet props g).getD (.obj []))) := by
        rw [dictGet_append_none hnone, dictGet, if_pos rfl]
      exact addRequiredDefaults_preserves this
    · have hf : f ∈ rest := by
        cases hmem with
        | head => exact absurd rfl hg
        | tail _ h => exact h
      by_cases hp : (dictGet es g).isSome
      · rw [if_pos hp]
        exact ih hf hnone
      · rw [if_neg hp]
        refine ih hf ?_
        rw [dictGet_append_none hnone, dictGet, if_neg hg]
        rfl

theorem fixStep2_get (es ss : JDict) (f : String) :
    dictGet (fixStep2 es ss) f = (dictGet es f).map (fixEntry ss f) := by
  induction es with
  | nil => rw [fixStep2]; rfl
  | cons p rest ih =>
    obtain ⟨k, v⟩ := p
    rw [fixStep2]
    by_cases hk : k = f
    · subst hk
      rw [dictGet, if_pos rfl, dictGet, if_pos rfl]
      rfl
    · rw [dictGet, if_neg hk, dictGet, if_neg hk]
      exact ih

theorem fixEntry_of_not_obj {ss : JDict} {k : String} {v : JValue}
    (h : ∀ nested, v ≠ .obj nested) : fixEntry ss k v = v := by
  rw [fixEntry]
  cases hget : dictGet (propsOf ss) k with
  | none => rfl
  | some fs =>
    cases v with
    | obj nested => exact absurd rfl (h nested)
    | null => rfl
    | bool b => rfl
    | num n => rfl
    | str s => rfl
    | arr items => rfl

theorem defaultFor_not_obj {fs : JValue}
    (h : typeName fs ≠ some "object") :
    ∀ nested, defaultFor fs ≠ JValue.obj nested := by
  intro nested
  unfold defaultFor
  split
  · intro hc
    cases hc
  · intro hc
    cases hc
  · rename_i heq
    exact absurd heq h
  · intro hc
    cases hc
  · intro hc
    cases hc
  · intro hc
    cases hc
  · intro hc
    cases hc

theorem dictGet_dictSet_self (d : JDict) (k : String) (v : JValue) :
    dictGet (dictSet d k v) k = some v := by
  induction d with
  | nil => rw [dictSet, dictGet, if_pos rfl]
  | cons p rest ih =>
    obtain ⟨k', v'⟩ := p
    by_cases hk : k' = k
    · rw [dictSet, if_pos hk, dictGet, if_pos rfl]
    · rw [dictSet, if_neg hk, dictGet, if_neg hk]
      exact ih

theorem dictGet_dictSet_ne {d : JDict} {k f : String} (v : JValue)
    (h : k ≠ f) : dictGet (dictSet d k v) f = dictGet d f := by
  induction d with
  | nil =>
    rw [dictSet]
    rw [show dictGet [(k, v)] f = if k = f then some v else none from rfl, if_neg h]
    rfl
  | cons p rest ih =>
    obtain ⟨k', v'⟩ := p
    by_cases hk : k' = k
    · subst hk
      rw [dictSet, if_pos rfl]
      rw [show dictGet ((k', v) :: rest) f
            = if k' = f then some v else dictGet rest f from rfl, if_neg h]
      rw [show dictGet ((k', v') :: rest) f
            = if k' = f then some v' else dictGet rest f from rfl, if_neg h]
    · rw [dictSet, if_neg hk]
      rw [show dictGet ((k', v') :: dictSet rest k v) f
            = if k' = f then some v' else dictGet (dictSet rest k v) f from rfl]
      rw [show dictGet ((k', v') :: rest) f
            = if k' = f then some v' else dictGet rest f from rfl]
      rw [ih]

theorem generateFallback_foldl_complete (ss : JDict) (f : String)
    (hreq : f ∈ requiredStrings ss) :
    ∀ (l acc : JDict),
      ((∃ fs, (f, fs) ∈ l) ∨ (dictGet acc f).isSome = true) →
      (dictGet
        (l.foldl
          (fun acc kv =>
            if kv.1 ∈ requiredStrings ss then dictSet acc kv.1 (defaultFor kv.2)
            else acc)
          acc) f).isSome = true := by
  intro l
  induction l with
  | nil =>
    intro acc h
    rcases h with ⟨fs, hfs⟩ | h
    · simp at hfs
    · exact h
  | cons p rest ih =>
    intro acc h
    obtain ⟨k, fs0⟩ := p
    rw [List.foldl_cons]
    rcases h with ⟨fs, hfs⟩ | h
    · rcases List.mem_cons.mp hfs with heq | htail
      · have hk : f = k := congrArg Prod.fst heq
        subst hk
        refine ih _ (Or.inr ?_)
        dsimp only
        rw [if_pos hreq, dictGet_dictSet_self]
        rfl
      · exact ih _ (Or.inl ⟨fs, htail⟩)
    · refine ih _ (Or.inr ?_)
      dsimp only
      by_cases hin : k ∈ requiredStrings ss
      · rw [if_pos hin]
        by_cases hk : k = f
        · subst hk
          rw [dictGet_dictSet_self]
          rfl
        · rw [dictGet_dictSet_ne _ hk]
          exact h
      · rw [if_neg hin]
        exact h

theorem generateFallback_complete {ss : JDict} {f : String}
    (hreq : f ∈ requiredStrings ss)
    (hprop : JDict.containsKey (propsOf ss) f = true) :
    JDict.containsKey (generateFallback (.obj ss)) f = true := by
  obtain ⟨fs, hfs⟩ := Option.isSome_iff_exists.mp hprop
  exact generateFallback_foldl_complete ss f hreq (propsOf ss) []
    (Or.inl ⟨fs, dictGet_mem hfs⟩)

theorem fixMissingRequired_obj (es ss : JDict) :
    fixMissingRequired (.obj es) (.obj ss)
      = .obj (fixStep2 (addRequiredDefaults (propsOf ss) es (requiredStrings ss)) ss) := by
  rw [fixMissingRequired]

end AiService

namespace AiServiceClaims

open AiService

/-- A minimal structured-output schema requiring one string field `foo`. -/
def c1Schema : JValue :=
  .obj
    [ ("type", .str "object")
    , ("properties", .obj [("foo", .obj [("type", .str "string")])])
    , ("required", .arr [.str "foo"]) ]

/-- C1 counterexample: `OpenAIService.generate_structured_output` does not
complete required fields.  The provider answers the perfectly valid JSON
`{}` (decoded by `json.loads` to the empty dict), the schema requires
`foo`, and the returned mapping does not contain `foo`. -/
theorem openai_structured_output_misses_required_field :
    requiredStrings (JValue.entriesOf c1Schema) = ["foo"] ∧
    openai_generate_structured_output
      (.withOutputText "\x7b\x7d" (some (.obj []))) c1Schema = .obj [] ∧
    JDict.containsKey
      (JValue.entriesOf
        (openai_generate_structured_output
          (.withOutputText "\x7b\x7d" (some (.obj []))) c1Schema)) "foo" = false :=
  ⟨rfl, rfl, rfl⟩

/-- C1 (amended): required-field completeness holds for the GEMINI service.
For every schema with required field `f`: (a) when the provider delivers a
parsed dict, the result contains `f`; (b) when the parsed dict omitted `f`
and `f`'s declared type is not `"object"`, the result maps `f` to the
type-appropriate default of `_fix_missing_required_fields` (`""`, `[]`,
`0`, `false`, and `None` for unrecognised types); (c) when the call raises
and the fallback is generated, the result contains `f` provided `f` has a
`properties` entry.  (`OpenAIService` has no such guarantee, as the
counterexample shows.) -/
theorem gemini_structured_output_required_complete (ss : JDict) (f : String)
    (hreq : f ∈ requiredStrings ss) :
    (∀ es : JDict,
      JDict.containsKey
        (JValue.entriesOf
          (gemini_generate_structured_output (.parsed (.obj es)) (.obj ss))) f = true) ∧
    (∀ es : JDict, dictGet es f = none →
      typeName ((dictGet (propsOf ss) f).getD (.obj [])) ≠ some "object" →
      dictGet
        (JValue.entriesOf
          (gemini_generate_structured_output (.parsed (.obj es)) (.obj ss))) f
        = some (defaultFor ((dictGet (propsOf ss) f).getD (.obj [])))) ∧
    (∀ e : String, JDict.containsKey (propsOf ss) f = true →
      JDict.containsKey
        (JValue.entriesOf
          (gemini_generate_structured_output (.apiError e) (.obj ss))) f = true) := by
  refine ⟨?_, ?_, ?_⟩
  · intro es
    show (dictGet (JValue.entriesOf
      (fixMissingRequired (.obj es) (.obj ss))) f).isSome = true
    rw [fixMissingRequired_obj]
    show (dictGet (fixStep2 (addRequiredDefaults (propsOf ss) es (requiredStrings ss)) ss) f).isSome = true
    rw [fixStep2_get]
    obtain ⟨v, hv⟩ := Option.isSome_iff_exists.mp
      (@addRequiredDefaults_complete (propsOf ss) es (requiredStrings ss) f hreq)
    rw [hv]
    rfl
  · intro es hnone htype
    show dictGet (JValue.entriesOf
      (fixMissingRequired (.obj es) (.obj ss))) f = _
    rw [fixMissingRequired_obj]
    show dictGet (fixStep2 (addRequiredDefaults (propsOf ss) es (requiredStrings ss)) ss) f = _
    rw [fixStep2_get, addRequiredDefaults_fresh hreq hnone]
    show some (fixEntry ss f (defaultFor ((dictGet (propsOf ss) f).getD (.obj [])))) = _
    rw [fixEntry_of_not_obj (defaultFor_not_obj htype)]
  · intro e hprop
    exact generateFallback_complete hreq hprop

/-- C1 witness: the amended guarantee evaluated on the concrete schema
`c1Schema` with an empty parsed response and with an API error. -/
theorem gemini_structured_output_required_complete_witness :
    JDict.containsKey
      (JValue.entriesOf
        (gemini_generate_structured_output
          (.parsed (.obj [])) (.obj (JValue.entriesOf c1Schema)))) "foo" = true ∧
    dictGet
      (JValue.entriesOf
        (gemini_generate_structured_output
          (.parsed (.obj [])) (.obj (JValue.entriesOf c1Schema)))) "foo"
      = some (.str "") ∧
    JDict.containsKey
      (JValue.entriesOf
        (gemini_generate_structured_output
          (.apiError "boom") (.obj (JValue.entriesOf c1Schema)))) "foo" = true := by
  obtain ⟨h1, h2, h3⟩ :=
    gemini_structured_output_required_complete (JValue.entriesOf c1Schema) "foo"
      (by decide)
  exact ⟨h1 [], h2 [] rfl (by decide), h3 "boom" (by decide)⟩

end AiServiceClaims

/-! ## Planner (`app/agents/planner.py`)

`PlannerAgent.process` issues one structured-output call against a fixed
eight-field schema and substitutes a fully defaulted plan only when the
gateway response is falsy; a truthy response is returned unchanged. -/

namespace Planner

open AiService

/-- The `output_schema` literal of `PlannerAgent.process`
(planner.py lines 65-109). -/
def plannerSchema : JValue :=
  .obj
    [ ("type", .str "object")
    , ("properties", .obj
        [ ("problem_analysis", .obj [("type", .str "string")])
        , ("approach", .obj [("type", .str "array"), ("items", .obj [("type", .str "string")])])
        , ("recommended_libraries", .obj [("type", .str "array"), ("items", .obj [("type", .str "string")])])
        , ("data_structures", .obj [("type", .str "array"), ("items", .obj [("type", .str "string")])])
        , ("algorithms", .obj [("type", .str "array"), ("items", .obj [("type", .str "string")])])
        , ("design_patterns", .obj [("type", .str "array"), ("items", .obj [("type", .str "string")])])
        , ("edge_cases", .obj [("type", .str "array"), ("items", .obj [("type", .str "string")])])
        , ("performance_considerations", .obj [("type", .str "array"), ("items", .obj [("type", .str "string")])]) ])
    , ("required", .arr
        [ .str "problem_analysis", .str "approach", .str "recommended_libraries"
        , .str "data_structures", .str "algorithms", .str "design_patterns"
        , .str "edge_cases", .str "performance_considerations" ])
    , ("additionalProperties", .bool false) ]

/-- The eight field names of a Plan. -/
def planFields : List String :=
  [ "problem_analysis", "approach", "recommended_libraries", "data_structures"
  , "algorithms", "design_patterns", "edge_cases", "performance_considerations" ]

/-- The fully defaulted plan literal returned by `PlannerAgent.process` when
the gateway response is falsy (planner.py lines 114-125). -/
def defaultPlanEntries : JDict :=
  [ ("problem_analysis", .str "")
  , ("approach", .arr [])
  , ("recommended_libraries", .arr [])
  , ("data_structures", .arr [])
  , ("algorithms", .arr [])
  , ("design_patterns", .arr [])
  , ("edge_cases", .arr [])
  , ("performance_considerations", .arr []) ]

/-- `PlannerAgent.process` after the structured-output call
(planner.py lines 111-127): `if not response: return {defaults}` else the
response unchanged. -/
def planner_process (response : JValue) : JValue :=
  if response.truthy then response else .obj defaultPlanEntries

end Planner

namespace PlannerClaims

open AiService Planner

/-- C7 counterexample: with the OpenAI service, a gateway response of
non-JSON garbage is wrapped as the truthy mapping `{"result": text}`, which
`PlannerAgent.process` returns unchanged — the eight Plan fields are
absent. -/
theorem planner_garbage_response_misses_fields :
    planner_process
      (openai_generate_structured_output (.withOutputText "garbage" none) plannerSchema)
      = .obj [("result", .str "garbage")] ∧
    JDict.containsKey
      (JValue.entriesOf
        (planner_process
          (openai_generate_structured_output (.withOutputText "garbage" none) plannerSchema)))
      "problem_analysis" = false :=
  ⟨rfl, rfl⟩

/-- C7 (amended): `PlannerAgent.process` never raises (it is total); when
the gateway response is falsy it returns the default Plan, which contains
all eight fields with `""` for the text field and `[]` for every list
field; and with the GEMINI service a non-JSON garbage response degrades to
the fallback, which `process` passes through with exactly the eight
defaulted fields.  A truthy response (such as OpenAI's `{"result": text}`
wrapper) is returned unchanged and need not contain the eight fields. -/
theorem planner_process_defaults (response : JValue)
    (h : response.truthy = false) :
    planner_process response = .obj defaultPlanEntries ∧
    (∀ f ∈ planFields, JDict.containsKey defaultPlanEntries f = true) ∧
    dictGet defaultPlanEntries "problem_analysis" = some (.str "") ∧
    (∀ f ∈ planFields, f ≠ "problem_analysis" →
      dictGet defaultPlanEntries f = some (.arr [])) ∧
    planner_process
      (gemini_generate_structured_output (.textOnly "garbage" none) plannerSchema)
      = .obj defaultPlanEntries := by
  refine ⟨?_, by decide, by rfl, ?_, by rfl⟩
  · unfold planner_process
    rw [h]
    rfl
  · intro f hf hne
    fin_cases hf
    · exact absurd rfl hne
    all_goals rfl

/-- C7 witness: the empty dict is falsy, so `process` returns the default
plan, on which the field guarantees are evaluated concretely. -/
theorem planner_process_defaults_witness :
    planner_process (.obj []) = .obj defaultPlanEntries ∧
    JDict.containsKey defaultPlanEntries "approach" = true := by
  obtain ⟨h1, h2, _, _, _⟩ := planner_process_defaults (.obj []) rfl
  exact ⟨h1, h2 "approach" (by decide)⟩

end PlannerClaims

/-! ## Research collector (`app/agents/researcher.py`)

`ResearchAgent.process` fans out one sub-task per plan topic, each wrapped
by `_safe_research_task`, gathers them with `asyncio.gather` (order
preserving), and buckets the results by `topic_type`.  Every research
helper returns either `None` or a dict with exactly the keys
`topic`, `topic_type`, `summary`, `data` (researcher.py lines 227-232,
297-303, 379-385, 459-465, 540-546, 620-626), modelled by `RItem`. -/

namespace Researcher

open PyText AiService

/-- Convert an embedded Python string back to a Lean string (for topics). -/
def pyStrToString (s : PyStr) : String := (s.map Char.ofNat).asString

/-- The six research helper families of `ResearchAgent.process`. -/
inductive TaskKind where
  | library
  | algorithm
  | dataStructure
  | designPattern
  | performance
  | bestPractice
  deriving DecidableEq

/-- A spawned sub-task: which helper runs, and the topic value it is
given. -/
abbrev Task := TaskKind × JValue

/-- The 4-field dict returned by every research helper (or `None`). -/
structure RItem where
  topic : String
  topicType : String
  summaryText : String
  data : JValue

/-- The result of the AI-knowledge fallback
`_generate_ai_knowledge_research`; the `.error` case of the environment
models any exception raised by it or while extending the buckets with a
malformed shape, which the try/except of lines 148-157 swallows. -/
structure AIRes where
  libraries : List JValue
  best_practices : List JValue
  code_examples : List JValue
  summaryEntries : JDict

/-- Environment: per-task outcomes and the AI-knowledge fallback. -/
structure ResearchEnv where
  outcome : Task → Except String (Option RItem)
  aiResearch : Except String AIRes

/-- `_safe_research_task` (researcher.py lines 760-775): await the wrapped
coroutine, converting any exception into `None`. -/
def safeResearchTask (r : Except String (Option RItem)) : Option RItem :=
  match r with
  | .ok v => v
  | .error _ => none

/-- Task spawning for one list-of-topics plan category (lines 71-106):
skipped when the category value is falsy; one task per truthy list item;
a single task for a string value; nothing for other types. -/
def topicTasks (kind : TaskKind) (v : Option JValue) : List Task :=
  match v with
  | none => []
  | some jv =>
    if jv.truthy then
      match jv with
      | .arr xs => (xs.filter JValue.truthy).map (fun x => (kind, x))
      | .str s => [(kind, .str s)]
      | _ => []
    else []

/-- Task spawning for the performance category (lines 107-109): one task
for the whole value when truthy. -/
def perfTasks (v : Option JValue) : List Task :=
  match v with
  | none => []
  | some jv => if jv.truthy then [(.performance, jv)] else []

/-- The task list built by `process` (lines 68-112), in source order; the
best-practices task is always spawned. -/
def buildTasks (plan : JDict) (language : PyStr) : List Task :=
  topicTasks .library (dictGet plan "recommended_libraries") ++
  topicTasks .algorithm (dictGet plan "algorithms") ++
  topicTasks .dataStructure (dictGet plan "data_structures") ++
  topicTasks .designPattern (dictGet plan "design_patterns") ++
  perfTasks (dictGet plan "performance_considerations") ++
  [(.bestPractice, .str (pyStrToString language))]

/-- `asyncio.gather` over the wrapped tasks (line 115): order-preserving,
and since every task is wrapped by `_safe_research_task`, no exception
propagates or cancels siblings. -/
def gatherResults (env : ResearchEnv) (tasks : List Task) : List (Option RItem) :=
  tasks.map (fun t => safeResearchTask (env.outcome t))

/-- The four mutable buckets of `process`. -/
structure Buckets where
  libs : List JValue
  best : List JValue
  ce : List JValue
  summaryEntries : JDict

/-- One iteration of the categorisation loop (lines 118-143).  A returned
`RItem` dict has four keys and is never falsy, so `if not result: continue`
skips exactly the `None` results. -/
def categorizeOne (b : Buckets) (r : Option RItem) : Buckets :=
  match r with
  | none => b
  | some it =>
    let b1 :=
      if it.topicType = "library" then { b with libs := b.libs ++ [it.data] }
      else if it.topicType = "algorithm" then { b with ce := b.ce ++ [it.data] }
      else if it.topicType = "data_structure" then { b with ce := b.ce ++ [it.data] }
      else if it.topicType = "design_pattern" then { b with best := b.best ++ [it.data] }
      else if it.topicType = "best_practice" then { b with best := b.best ++ [it.data] }
      else if it.topicType = "performance" then
        (if b.best.contains it.data then b else { b with best := b.best ++ [it.data] })
      else b
    if it.summaryText ≠ "" ∧ it.topic ≠ "" then
      { b1 with summaryEntries := dictSet b1.summaryEntries it.topic (.str it.summaryText) }
    else b1

/-- Python `dict.update` on embedded dicts. -/
def dictUpdate (d other : JDict) : JDict :=
  other.foldl (fun acc kv => dictSet acc kv.1 kv.2) d

/-- `ResearchAgent.process` (researcher.py lines 32-166). -/
def research_process (env : ResearchEnv) (plan : JDict) (language0 : PyStr) : JDict :=
  let language := clean_language_name language0
  let tasks := buildTasks plan language
  let results := gatherResults env tasks
  let b := results.foldl categorizeOne ⟨[], [], [], []⟩
  let bFinal :=
    if b.libs.isEmpty && b.best.isEmpty && b.ce.isEmpty then
      match env.aiResearch with
      | .ok ai =>
          { libs := b.libs ++ ai.libraries
          , best := b.best ++ ai.best_practices
          , ce := b.ce ++ ai.code_examples
          , summaryEntries := dictUpdate b.summaryEntries ai.summaryEntries : Buckets }
      | .error _ => b
    else b
  [ ("libraries", .arr bFinal.libs)
  , ("best_practices", .arr bFinal.best)
  , ("code_examples", .arr bFinal.ce)
  , ("summary", .obj bFinal.summaryEntries)
  , ("language", .str (pyStrToString language)) ]

end Researcher

namespace ResearcherClaims

open PyText AiService Researcher

/-- C8: (1) `_safe_research_task` degrades an exception in a sub-task to
`None`; (2) changing one sub-task's outcome (e.g. forcing an exception)
leaves the gathered result of every other spawned sub-task unchanged —
sibling isolation; (3) `process` is total and its returned mapping always
contains the `libraries`, `best_practices`, `code_examples` and `summary`
fields. -/
theorem research_isolated_failure :
    (∀ e : String, safeResearchTask (.error e) = none) ∧
    (∀ (env env' : ResearchEnv) (plan : JDict) (language : PyStr) (t0 : Task),
      (∀ t : Task, t ≠ t0 → env.outcome t = env'.outcome t) →
      ∀ (i : Nat) (t : Task),
        (buildTasks plan language)[i]? = some t → t ≠ t0 →
        (gatherResults env (buildTasks plan language))[i]?
          = (gatherResults env' (buildTasks plan language))[i]?) ∧
    (∀ (env : ResearchEnv) (plan : JDict) (language : PyStr),
      JDict.containsKey (research_process env plan language) "libraries" = true ∧
      JDict.containsKey (research_process env plan language) "best_practices" = true ∧
      JDict.containsKey (research_process env plan language) "code_examples" = true ∧
      JDict.containsKey (research_process env plan language) "summary" = true) := by
  refine ⟨fun _ => rfl, ?_, ?_⟩
  · intro env env' plan language t0 hagree i t hi ht
    unfold gatherResults
    rw [List.getElem?_map, List.getElem?_map, hi]
    simp only [Option.map_some']
    rw [hagree t ht]
  · intro env plan language
    exact ⟨rfl, rfl, rfl, rfl⟩

/-- The per-task outcomes of the C8 witness scenario: researching topic
list `["quicksort"]`; when `fail` is set, the quicksort search raises. -/
def quicksortOutcome (fail : Bool) : Task → Except String (Option RItem) :=
  fun t =>
    match t with
    | (.algorithm, .str s) =>
        if s = "quicksort" ∧ fail then .error "search client unavailable"
        else .ok (some ⟨s, "algorithm", "found", .str "example"⟩)
    | _ => .ok none

/-- The C8 witness plan: `{"algorithms": ["quicksort"]}`. -/
def quicksortPlan : JDict := [("algorithms", .arr [.str "quicksort"])]

/-- C8 witness: concrete run of the scenario — the failing quicksort task
degrades to `None`, the sibling best-practices task is unaffected by the
forced exception, and the returned findings still carry the four fields. -/
theorem research_isolated_failure_witness :
    safeResearchTask (.error "search client unavailable") = none ∧
    (gatherResults ⟨quicksortOutcome true, .error "unused"⟩
        (buildTasks quicksortPlan (PyText.clean_language_name (pstr "python"))))[1]?
      = (gatherResults ⟨quicksortOutcome false, .error "unused"⟩
        (buildTasks quicksortPlan (PyText.clean_language_name (pstr "python"))))[1]? ∧
    JDict.containsKey
      (research_process ⟨quicksortOutcome true, .error "unused"⟩ quicksortPlan
        (pstr "python")) "code_examples" = true := by
  obtain ⟨h1, h2, h3⟩ := research_isolated_failure
  refine ⟨h1 "search client unavailable", ?_, (h3 _ quicksortPlan (pstr "python")).2.2.1⟩
  refine h2 ⟨quicksortOutcome true, .error "unused"⟩ ⟨quicksortOutcome false, .error "unused"⟩
    quicksortPlan (PyText.clean_language_name (pstr "python"))
    (TaskKind.algorithm, .str "quicksort") ?_ 1
    (TaskKind.bestPractice, .str "python") rfl ?_
  · intro t ht
    obtain ⟨k, v⟩ := t
    cases k <;> cases v <;> try rfl
    rename_i s
    show quicksortOutcome true (.algorithm, .str s)
      = quicksortOutcome false (.algorithm, .str s)
    unfold quicksortOutcome
    by_cases hs : s = "quicksort"
    · subst hs
      exact absurd rfl ht
    · simp [hs]
  · intro h
    have := congrArg Prod.fst h
    exact TaskKind.noConfusion this

end ResearcherClaims

/-! ## Orchestrator (`app/core/orchestrator.py`)

`AgentOrchestrator.solve_problem` runs planning → research → code
generation → test-script generation → test execution → one collaboration
(refinement) call, wrapped in a single try/except.  The environment
supplies each awaited call's outcome (`.error e` modelling a raised
exception with `str(e) = e`, which the top-level handler catches).  The
output records the `phase_callback` invocations that would be delivered to
a supplied callback, and how many times `collaborate()` /
`TestExecutionAgent.process` were invoked. -/

namespace Orchestrator

open PyText

/-- Outcomes of every awaited call inside `solve_problem`. -/
structure OrchEnv where
  language : PyStr
  /-- `planner_agent.process` -/
  plan : Except String JDict
  /-- `research_agent.process` -/
  research : Except String JDict
  /-- `code_generator_agent.process` -/
  codeGen : Except String JDict
  /-- `_generate_test_cases_code` (has its own try/except, but the awaited
  gateway call can still raise through e.g. cancellation; `.ok` carries the
  returned script) -/
  genTests : Except String String
  /-- `test_executor_agent.process` on the initial code -/
  testExec1 : Except String JDict
  /-- `code_generator_agent.collaborate` -/
  collab : Except String JDict
  /-- `_generate_test_cases_code` for the refined code -/
  genTests2 : Except String String
  /-- `test_executor_agent.process` on the refined code -/
  testExec2 : Except String JDict
  /-- the stdlib `html.unescape`, applied to a truthy code value -/
  htmlUnescape : JValue → JValue

/-- The `solution` dict assembled at lines 207-220. -/
structure OrchSolution where
  problem_analysis : JValue
  approach : JValue
  code : JValue
  file_structure : JValue
  language : PyStr
  libraries : JValue
  best_practices : JValue
  performance_considerations : JValue
  test_results : Option JDict

/-- The dict returned by `solve_problem`; `solution = none` models the
empty `{}` of the failure branch (line 237). -/
structure OrchResult where
  status : String
  error : Option String
  solution : Option OrchSolution

/-- Observable outcome of one run. -/
structure OrchOutput where
  trace : List (String × Nat)
  collabCalls : Nat
  testExecCalls : Nat
  result : OrchResult

/-- The except-branch of `solve_problem` (lines 229-238): report phase
`failed` with progress 0 and return a failed result with the stringified
exception. -/
def failOut (trace : List (String × Nat)) (tc cc : Nat) (e : String) : OrchOutput :=
  { trace := trace ++ [("failed", 0)], collabCalls := cc, testExecCalls := tc,
    result :=
      { status := "failed", error := some ("Error generating solution: " ++ e),
        solution := none } }

/-- Truthiness of the optional `test_execution_result`. -/
def terTruthy : Option JDict → Bool
  | none => false
  | some d => !d.isEmpty

/-- Final assembly (lines 198-227): unescape truthy code, report
`completed` at 100, and build the solution dict. -/
def finishOut (env : OrchEnv) (cleanLang : PyStr) (planR codeR : JDict)
    (code0 fs : JValue) (ter : Option JDict) (trace : List (String × Nat))
    (tc : Nat) : OrchOutput :=
  let code := if code0.truthy then env.htmlUnescape code0 else code0
  { trace := trace ++ [("completed", 100)], collabCalls := 1, testExecCalls := tc,
    result :=
      { status := "success", error := none,
        solution := some
          { problem_analysis := JDict.getD planR "problem_analysis" (.str "")
          , approach := JDict.getD planR "approach" (.arr [])
          , code := code
          , file_structure := fs
          , language := cleanLang
          , libraries := JDict.getD codeR "libraries" (.arr [])
          , best_practices := JDict.getD codeR "best_practices" (.arr [])
          , performance_considerations :=
              JDict.getD planR "performance_considerations" (.arr [])
          , test_results := ter } } }

/-- Phase 5 (lines 161-196): report `refinement` at 85, call
`collaborate()` once, adopt refined code when present, and re-run tests
only when an initial test result exists and did not pass. -/
def refineAndFinish (env : OrchEnv) (cleanLang : PyStr) (planR codeR : JDict)
    (ter : Option JDict) (trace : List (String × Nat)) (tc : Nat) : OrchOutput :=
  let trace1 := trace ++ [("refinement", 85)]
  match env.collab with
  | .error e => failOut trace1 tc 1 e
  | .ok collabR =>
    if (!collabR.isEmpty) && (JDict.getD collabR "refined_code" .null).truthy then
      let code0 := JDict.getD collabR "refined_code" (.str "")
      let fs := JDict.getD collabR "file_structure"
                  (JDict.getD codeR "file_structure" (.obj []))
      if terTruthy ter && !(JDict.getD (ter.getD []) "passed" (.bool false)).truthy then
        match env.genTests2 with
        | .error e => failOut trace1 tc 1 e
        | .ok _ =>
          match env.testExec2 with
          | .error e => failOut trace1 (tc + 1) 1 e
          | .ok t2 => finishOut env cleanLang planR codeR code0 fs (some t2) trace1 (tc + 1)
      else finishOut env cleanLang planR codeR code0 fs ter trace1 tc
    else
      finishOut env cleanLang planR codeR (JDict.getD codeR "code" (.str ""))
        (JDict.getD codeR "file_structure" (.obj [])) ter trace1 tc

/-- `AgentOrchestrator.solve_problem` (orchestrator.py lines 41-238). -/
def solve_problem (env : OrchEnv) : OrchOutput :=
  let cleanLang := clean_language_name env.language
  let t0 := [("planning", 10)]
  match env.plan with
  | .error e => failOut t0 0 0 e
  | .ok planR =>
    let t1 := t0 ++ [("research", 30)]
    match env.research with
    | .error e => failOut t1 0 0 e
    | .ok _researchR =>
      let t2 := t1 ++ [("code_generation", 50)]
      match env.codeGen with
      | .error e => failOut t2 0 0 e
      | .ok codeR =>
        match env.genTests with
        | .error e => failOut t2 0 0 e
        | .ok testCasesCode =>
          let t3 := t2 ++ [("test_execution", 70)]
          if testCasesCode ≠ "" then
            match env.testExec1 with
            | .error e => failOut t3 1 0 e
            | .ok ter => refineAndFinish env cleanLang planR codeR (some ter) t3 1
          else refineAndFinish env cleanLang planR codeR none t3 0

/-- Every run either ends in the except-branch (`failOut`, with at most one
collaborate call counted) or succeeds, in which case all phases up to the
collaboration returned normally, exactly one collaborate call was made, the
solution carries the cleaned language, and — whenever the refinement
re-run's entry conditions held — the two re-run calls also returned
normally. -/
theorem solve_problem_cases (env : OrchEnv) :
    (∃ tr tc cc e, cc ≤ 1 ∧ solve_problem env = failOut tr tc cc e) ∨
    ((solve_problem env).result.status = "success" ∧
      (solve_problem env).collabCalls = 1 ∧
      (∃ sol, (solve_problem env).result.solution = some sol ∧
        sol.language = clean_language_name env.language) ∧
      env.plan.isOk = true ∧ env.research.isOk = true ∧ env.codeGen.isOk = true ∧
      env.genTests.isOk = true ∧ env.collab.isOk = true ∧
      (∀ tcc : String, env.genTests = Except.ok tcc → tcc ≠ "" →
        env.testExec1.isOk = true) ∧
      (∀ c : JDict, env.collab = Except.ok c →
        (!c.isEmpty && (JDict.getD c "refined_code" JValue.null).truthy) = true →
        (∀ t1 : JDict, env.testExec1 = Except.ok t1 →
          (terTruthy (some t1)
            && !(JDict.getD t1 "passed" (JValue.bool false)).truthy) = true) →
        (∀ tcc : String, env.genTests = Except.ok tcc → tcc ≠ "") →
        env.genTests2.isOk = true ∧ env.testExec2.isOk = true)) := by
  unfold solve_problem
  cases hp : env.plan with
  | error e => exact Or.inl ⟨_, _, _, _, by omega, rfl⟩
  | ok planR =>
  cases hr : env.research with
  | error e => exact Or.inl ⟨_, _, _, _, by omega, rfl⟩
  | ok researchR =>
  cases hc : env.codeGen with
  | error e => exact Or.inl ⟨_, _, _, _, by omega, rfl⟩
  | ok codeR =>
  cases hg : env.genTests with
  | error e => exact Or.inl ⟨_, _, _, _, by omega, rfl⟩
  | ok tcc =>
  dsimp only
  by_cases htcc : tcc ≠ ""
  · rw [if_pos htcc]
    cases ht : env.testExec1 with
    | error e => exact Or.inl ⟨_, _, _, _, by omega, rfl⟩
    | ok ter =>
      dsimp only
      unfold refineAndFinish
      cases hcol : env.collab with
      | error e => exact Or.inl ⟨_, _, _, _, by omega, rfl⟩
      | ok collabR =>
        dsimp only
        split
        next hrefined =>
          split
          next hrerun =>
            cases hg2 : env.genTests2 with
            | error e => exact Or.inl ⟨_, _, _, _, by omega, rfl⟩
            | ok tcc2 =>
              cases ht2 : env.testExec2 with
              | error e => exact Or.inl ⟨_, _, _, _, by omega, rfl⟩
              | ok t2 => exact Or.inr ⟨rfl, rfl, ⟨_, rfl, rfl⟩, rfl, rfl, rfl, rfl, rfl,
                fun tcc3 hok hne => rfl,
                fun c hc hcond hrerunAll hne => ⟨rfl, rfl⟩⟩
          next hnorerun =>
            exact Or.inr ⟨rfl, rfl, ⟨_, rfl, rfl⟩, rfl, rfl, rfl, rfl, rfl,
              fun tcc3 hok hne => rfl,
              fun c hc hcond hrerunAll hne => absurd (hrerunAll ter rfl) hnorerun⟩
        next hnorefined =>
          exact Or.inr ⟨rfl, rfl, ⟨_, rfl, rfl⟩, rfl, rfl, rfl, rfl, rfl,
            fun tcc3 hok hne => rfl,
            fun c hc hcond hrerunAll hne => by
              injection hc with hc
              subst hc
              exact absurd hcond hnorefined⟩
  · rw [if_neg htcc]
    unfold refineAndFinish
    cases hcol : env.collab with
    | error e => exact Or.inl ⟨_, _, _, _, by omega, rfl⟩
    | ok collabR =>
      dsimp only
      split
      next hrefined =>
        split
        next hrerun =>
          cases hg2 : env.genTests2 with
          | error e => exact Or.inl ⟨_, _, _, _, by omega, rfl⟩
          | ok tcc2 =>
            cases ht2 : env.testExec2 with
            | error e => exact Or.inl ⟨_, _, _, _, by omega, rfl⟩
            | ok t2 => exact Or.inr ⟨rfl, rfl, ⟨_, rfl, rfl⟩, rfl, rfl, rfl, rfl, rfl,
              fun tcc3 hok hne => by
                injection hok with hok
                subst hok
                exact absurd (not_not.mp htcc) hne,
              fun c hc hcond hrerunAll hne => ⟨rfl, rfl⟩⟩
        next hnorerun =>
          exact Or.inr ⟨rfl, rfl, ⟨_, rfl, rfl⟩, rfl, rfl, rfl, rfl, rfl,
            fun tcc3 hok hne => by
              injection hok with hok
              subst hok
              exact absurd (not_not.mp htcc) hne,
            fun c hc hcond hrerunAll hne => absurd (hne tcc rfl) htcc⟩
      next hnorefined =>
        exact Or.inr ⟨rfl, rfl, ⟨_, rfl, rfl⟩, rfl, rfl, rfl, rfl, rfl,
          fun tcc3 hok hne => by
            injection hok with hok
            subst hok
            exact absurd (not_not.mp htcc) hne,
          fun c hc hcond hrerunAll hne => by
            injection hc with hc
            subst hc
            exact absurd hcond hnorefined⟩

end Orchestrator

namespace OrchestratorClaims

open PyText Orchestrator

/-- An environment in which every phase succeeds and the initial test
execution reports `passed=True`. -/
def passEnv : OrchEnv :=
  { language := pstr "python"
  , plan := .ok [("problem_analysis", .str "sum"), ("approach", .arr [])]
  , research := .ok []
  , codeGen := .ok [("code", .str "print(6)")]
  , genTests := .ok "test script"
  , testExec1 := .ok [("passed", .bool true), ("results", .arr [.obj []])]
  , collab := .ok [("refined_code", .str "print(6)")]
  , genTests2 := .ok ""
  , testExec2 := .ok []
  , htmlUnescape := fun v => v }

/-- C2 counterexample: a run whose initial test execution passes still
reports the `refinement` phase at 85 and still invokes `collaborate()`
(once) before reporting `completed` — the orchestrator has no
skip-refinement branch. -/
theorem refinement_reported_despite_passing_tests :
    passEnv.testExec1
      = Except.ok [("passed", .bool true), ("results", .arr [.obj []])] ∧
    (JDict.getD [("passed", .bool true), ("results", .arr [.obj []])]
      "passed" (.bool false)).truthy = true ∧
    (solve_problem passEnv).trace
      = [("planning", 10), ("research", 30), ("code_generation", 50),
         ("test_execution", 70), ("refinement", 85), ("completed", 100)] ∧
    (solve_problem passEnv).collabCalls = 1 :=
  ⟨rfl, rfl, rfl, rfl⟩

/-- C2 (amended): on every run in which all awaited phases return normally,
the test script is non-empty and the initial test execution reports
`passed=True`, the orchestrator still reports the full phase sequence
including `refinement` at 85, invokes `collaborate()` exactly once, does
NOT re-execute tests after the collaboration, and completes with status
`success`. -/
theorem refinement_always_runs_once (env : OrchEnv)
    (planR researchR codeR ter collabR : JDict) (tcc : String)
    (hp : env.plan = .ok planR) (hr : env.research = .ok researchR)
    (hc : env.codeGen = .ok codeR) (hg : env.genTests = .ok tcc)
    (htcc : tcc ≠ "") (ht : env.testExec1 = .ok ter)
    (hpassed : (JDict.getD ter "passed" (.bool false)).truthy = true)
    (hcol : env.collab = .ok collabR) :
    (solve_problem env).trace
      = [("planning", 10), ("research", 30), ("code_generation", 50),
         ("test_execution", 70), ("refinement", 85), ("completed", 100)] ∧
    (solve_problem env).collabCalls = 1 ∧
    (solve_problem env).testExecCalls = 1 ∧
    (solve_problem env).result.status = "success" := by
  unfold solve_problem
  rw [hp, hr, hc, hg]
  dsimp only
  rw [if_pos htcc, ht]
  dsimp only
  unfold refineAndFinish
  rw [hcol]
  dsimp only
  split
  · rw [show (terTruthy (some ter)
        && !(JDict.getD ((some ter).getD []) "passed" (.bool false)).truthy) = false by
      show (terTruthy (some ter)
        && !(JDict.getD ter "passed" (.bool false)).truthy) = false
      rw [hpassed]
      simp]
    exact ⟨rfl, rfl, rfl, rfl⟩
  · exact ⟨rfl, rfl, rfl, rfl⟩

/-- C2 witness: the amended statement evaluated on the concrete
all-passing environment. -/
theorem refinement_always_runs_once_witness :
    (solve_problem passEnv).trace
      = [("planning", 10), ("research", 30), ("code_generation", 50),
         ("test_execution", 70), ("refinement", 85), ("completed", 100)] ∧
    (solve_problem passEnv).collabCalls = 1 ∧
    (solve_problem passEnv).testExecCalls = 1 ∧
    (solve_problem passEnv).result.status = "success" :=
  refinement_always_runs_once passEnv
    [("problem_analysis", .str "sum"), ("approach", .arr [])] []
    [("code", .str "print(6)")]
    [("passed", .bool true), ("results", .arr [.obj []])]
    [("refined_code", .str "print(6)")] "test script"
    rfl rfl rfl rfl (by decide) rfl rfl rfl

/-- C3: the number of `collaborate()` invocations in any run of
`solve_problem` is at most 3 (the code in fact performs at most one). -/
theorem collaborate_calls_at_most_three (env : OrchEnv) :
    (solve_problem env).collabCalls ≤ 3 := by
  rcases solve_problem_cases env with ⟨tr, tc, cc, e, hcc, heq⟩ | ⟨_, h1, _⟩
  · rw [heq]
    show cc ≤ 3
    omega
  · rw [h1]
    omega

theorem error_prefix_nonempty (msg : String) :
    ("Error generating solution: " ++ msg) ≠ "" := by
  intro heq
  have h2 := congrArg String.length heq
  rw [String.length_append] at h2
  have h3 : String.length "Error generating solution: " = 27 := rfl
  rw [h3] at h2
  simp at h2

/-- The entry conditions of the refinement re-run (orchestrator.py lines
180-191), stated over whatever values the phases returned: a non-empty test
script (so the initial test execution ran), a truthy collaboration result
whose `refined_code` is truthy, and an initial test result that is truthy
but did not pass. -/
def rerunReached (env : OrchEnv) : Prop :=
  (∀ tcc : String, env.genTests = Except.ok tcc → tcc ≠ "") ∧
  (∀ c : JDict, env.collab = Except.ok c →
    (!c.isEmpty && (JDict.getD c "refined_code" JValue.null).truthy) = true) ∧
  (∀ t1 : JDict, env.testExec1 = Except.ok t1 →
    (terTruthy (some t1)
      && !(JDict.getD t1 "passed" (JValue.bool false)).truthy) = true)

/-- C9: if any awaited pipeline phase raises — planning, research, code
generation, test-script generation, collaboration, the initial test
execution (provided a non-empty test script made it run), or either
refinement re-run call (test regeneration at line 184 or re-execution at
line 191, provided the re-run's entry conditions held) — `solve_problem`
catches the exception: it reports phase `failed` with progress 0 as the
final callback, and returns (never raises) a result with status `failed`,
a non-empty error string, and an empty solution. -/
theorem unhandled_exception_reports_failed (env : OrchEnv) (e : String)
    (h : env.plan = .error e ∨ env.research = .error e ∨ env.codeGen = .error e ∨
         env.genTests = .error e ∨ env.collab = .error e ∨
         ((∀ tcc : String, env.genTests = Except.ok tcc → tcc ≠ "") ∧
           env.testExec1 = .error e) ∨
         (rerunReached env ∧ env.genTests2 = .error e) ∨
         (rerunReached env ∧ env.testExec2 = .error e)) :
    (solve_problem env).result.status = "failed" ∧
    (∃ msg, (solve_problem env).result.error
        = some ("Error generating solution: " ++ msg) ∧
      ("Error generating solution: " ++ msg) ≠ "") ∧
    (∃ pre, (solve_problem env).trace = pre ++ [("failed", 0)]) ∧
    (solve_problem env).result.solution = none := by
  rcases solve_problem_cases env with ⟨tr, tc, cc, msg, _, heq⟩ | hok
  · rw [heq]
    exact ⟨rfl, ⟨msg, rfl, error_prefix_nonempty msg⟩, ⟨tr, rfl⟩, rfl⟩
  · obtain ⟨_, _, _, hpOk, hrOk, hcOk, hgOk, hcolOk, hteOk, hrerunOk⟩ := hok
    exfalso
    have hrerun2ok : rerunReached env →
        env.genTests2.isOk = true ∧ env.testExec2.isOk = true := by
      rintro ⟨hall, hcolAll, hteAll⟩
      cases hcol2 : env.collab with
      | error e2 =>
        rw [hcol2] at hcolOk
        exact Bool.noConfusion hcolOk
      | ok c =>
        exact hrerunOk c hcol2 (hcolAll c hcol2) hteAll hall
    rcases h with h | h | h | h | h | ⟨hall, hte⟩ | ⟨hreach, hg2⟩ | ⟨hreach, ht2⟩
    · rw [h] at hpOk
      exact Bool.noConfusion hpOk
    · rw [h] at hrOk
      exact Bool.noConfusion hrOk
    · rw [h] at hcOk
      exact Bool.noConfusion hcOk
    · rw [h] at hgOk
      exact Bool.noConfusion hgOk
    · rw [h] at hcolOk
      exact Bool.noConfusion hcolOk
    · cases hgt : env.genTests with
      | error e2 =>
        rw [hgt] at hgOk
        exact Bool.noConfusion hgOk
      | ok tcc =>
        have := hteOk tcc hgt (hall tcc hgt)
        rw [hte] at this
        exact Bool.noConfusion this
    · have := (hrerun2ok hreach).1
      rw [hg2] at this
      exact Bool.noConfusion this
    · have := (hrerun2ok hreach).2
      rw [ht2] at this
      exact Bool.noConfusion this

/-- An environment whose planning phase raises. -/
def planFailEnv : OrchEnv :=
  { passEnv with plan := .error "planner exploded" }

/-- An environment in which the initial tests fail (so the refinement
re-run is entered) and the re-run's test-script regeneration raises. -/
def rerunFailEnv : OrchEnv :=
  { passEnv with
    testExec1 := .ok [("passed", .bool false)]
    genTests2 := .error "regeneration exploded" }

/-- C9 witness: a concrete run whose planning phase raises, and a concrete
run whose refinement re-run raises, both end with the `failed` callback at
progress 0 and a failed result. -/
theorem unhandled_exception_reports_failed_witness :
    ((solve_problem planFailEnv).result.status = "failed" ∧
      (solve_problem planFailEnv).result.error
        = some ("Error generating solution: " ++ "planner exploded") ∧
      (solve_problem planFailEnv).trace = [("planning", 10), ("failed", 0)]) ∧
    ((solve_problem rerunFailEnv).result.status = "failed" ∧
      (solve_problem rerunFailEnv).result.error
        = some ("Error generating solution: " ++ "regeneration exploded") ∧
      (solve_problem rerunFailEnv).trace
        = [("planning", 10), ("research", 30), ("code_generation", 50),
           ("test_execution", 70), ("refinement", 85), ("failed", 0)]) := by
  obtain ⟨h1, _, _, _⟩ :=
    unhandled_exception_reports_failed planFailEnv "planner exploded" (Or.inl rfl)
  have hreach : rerunReached rerunFailEnv :=
    ⟨fun tcc hok => by
        injection hok with hok
        subst hok
        decide,
      fun c hc => by
        injection hc with hc
        subst hc
        rfl,
      fun t1 ht => by
        injection ht with ht
        subst ht
        rfl⟩
  obtain ⟨h2, _, _, _⟩ :=
    unhandled_exception_reports_failed rerunFailEnv "regeneration exploded"
      (Or.inr (Or.inr (Or.inr (Or.inr (Or.inr (Or.inr (Or.inl ⟨hreach, rfl⟩)))))))
  exact ⟨⟨h1, rfl, rfl⟩, ⟨h2, rfl, rfl⟩⟩

end OrchestratorClaims

namespace TextUtilClaims

open PyText Orchestrator OrchestratorClaims

/-- C10: `clean_language_name` is idempotent, and the `language` field of
every solution returned by a successful `solve_problem` run is exactly
`clean_language_name` of the requested language (hence normalized). -/
theorem clean_language_name_idempotent :
    (∀ s : PyStr, clean_language_name (clean_language_name s) = clean_language_name s) ∧
    (∀ (env : OrchEnv) (sol : OrchSolution),
      (solve_problem env).result.solution = some sol →
      sol.language = clean_language_name env.language) := by
  refine ⟨clean_language_name_idem, ?_⟩
  intro env sol h
  rcases solve_problem_cases env with ⟨tr, tc, cc, e, _, heq⟩ | ⟨_, _, ⟨sol2, hsol2, hlang⟩, _⟩
  · rw [heq] at h
    exact Option.noConfusion h
  · rw [hsol2] at h
    injection h with h
    exact h ▸ hlang

/-- The solution record computed for `passEnv`. -/
def passSol : OrchSolution :=
  { problem_analysis := .str "sum"
  , approach := .arr []
  , code := .str "print(6)"
  , file_structure := .obj []
  , language := pstr "python"
  , libraries := .arr []
  , best_practices := .arr []
  , performance_considerations := .arr []
  , test_results := some [("passed", .bool true), ("results", .arr [.obj []])] }

/-- C10 witness: the normalized-language property evaluated on the
concrete all-passing environment. -/
theorem clean_language_name_idempotent_witness :
    (solve_problem passEnv).result.solution = some passSol ∧
    passSol.language = clean_language_name passEnv.language :=
  ⟨rfl, clean_language_name_idempotent.2 passEnv passSol rfl⟩

end TextUtilClaims
